import Mathlib

/-!
Verification development for the revio-copy repository.

The Go sources under pkg/metadata and pkg/fileops are shallowly embedded:
pure computations become Lean functions, filesystem access is abstracted
into oracle parameters (directory walks, glob results, stat checks), and
fallible Go functions returning (T, error) become `Except String T` whose
error values are the literal error strings of the source.

Go string primitives (lexicographic comparison, substring search,
strings.Split, strings.ToLower, filepath.Base/Dir/Join) are modelled on
`List Char` with code-point comparisons.  UTF-8 byte order coincides with
code-point order, so the char-level model agrees with Go's byte-level
semantics on valid UTF-8 input; ToLower is modelled on the ASCII range,
which is the only range the repository's inputs exercise.
-/

/-- Character equality via code points (Go compares raw bytes; reduced here
to code points, which order identically under UTF-8). -/
def charEq (a b : Char) : Bool := a.toNat == b.toNat

/-- Lexicographic strict comparison on char lists, modelling Go's `<` / `>`
on strings (byte-wise lexicographic order). -/
def goStrLtL : List Char → List Char → Bool
  | [], [] => false
  | [], _ :: _ => true
  | _ :: _, [] => false
  | a :: as, b :: bs =>
    if a.toNat < b.toNat then true
    else if b.toNat < a.toNat then false
    else goStrLtL as bs

/-- Go string `a < b`. -/
def goStrLt (a b : String) : Bool := goStrLtL a.data b.data

/-- Whether `pre` is a prefix of `s` (char lists). -/
def isPrefixL : List Char → List Char → Bool
  | [], _ => true
  | _ :: _, [] => false
  | a :: as, b :: bs => charEq a b && isPrefixL as bs

/-- Whether `sub` occurs as a contiguous substring of `s`, modelling Go's
`strings.Contains`. -/
def containsL (sub : List Char) : List Char → Bool
  | [] => isPrefixL sub []
  | c :: cs => isPrefixL sub (c :: cs) || containsL sub cs

/-- Go `strings.Contains(s, sub)`. -/
def strContains (s sub : String) : Bool := containsL sub.data s.data

/-- Prefix of `s` strictly before the first occurrence of (non-empty)
separator `sep`, i.e. Go's `strings.Split(s, sep)[0]`. -/
def splitPrefixBefore (sep : List Char) : List Char → List Char
  | [] => []
  | c :: cs => if isPrefixL sep (c :: cs) then [] else c :: splitPrefixBefore sep cs

/-- Go `strings.Split(s, sep)[0]` for a non-empty separator. -/
def cutBefore (s sep : String) : String := ⟨splitPrefixBefore sep.data s.data⟩

/-- ASCII lower-casing of one character (Go `strings.ToLower`, restricted to
the ASCII letters the repository's filenames use). -/
def lowerChar (c : Char) : Char :=
  if 65 ≤ c.toNat ∧ c.toNat ≤ 90 then Char.ofNat (c.toNat + 32) else c

/-- ASCII `strings.ToLower`. -/
def strToLower (s : String) : String := ⟨s.data.map lowerChar⟩

/-- Reversed-input helper: characters of the last path component, reversed. -/
def revTakeUntilSlash : List Char → List Char
  | [] => []
  | c :: cs => if charEq c '/' then [] else c :: revTakeUntilSlash cs

/-- Go `filepath.Base` for clean slash-separated paths without a trailing
slash. -/
def baseName (s : String) : String :=
  ⟨(revTakeUntilSlash s.data.reverse).reverse⟩

/-- Reversed-input helper for `parentDir`: drop the last component and its
slash, `none` when the path has no slash. -/
def dropLastComp : List Char → Option (List Char)
  | [] => none
  | c :: cs => if charEq c '/' then some cs else dropLastComp cs

/-- Go `filepath.Dir` for clean slash-separated paths without a trailing
slash. -/
def parentDir (s : String) : String :=
  match dropLastComp s.data.reverse with
  | none => "."
  | some rest => if rest.isEmpty then "/" else ⟨rest.reverse⟩

/-- Go `filepath.Join` of two non-empty clean components. -/
def joinPath (a b : String) : String := a ++ "/" ++ b

/-! ### Data model of pkg/metadata (metadata.go) -/

/-- DNABarcode element. -/
structure DNABarcode where
  Name : String
deriving DecidableEq, Repr

/-- BioSample element: a declared sample with its declared barcodes. -/
structure BioSample where
  Name : String
  DNABarcodes : List DNABarcode
deriving DecidableEq, Repr

/-- WellSample element. -/
structure WellSample where
  Name : String
  BioSamples : List BioSample
deriving DecidableEq, Repr

/-- RunDetails element. -/
structure RunDetails where
  Name : String
  CreatedBy : String
  WhenCreated : String
  StartedBy : String
  WhenStarted : String
deriving DecidableEq, Repr

/-- CollectionMetadata element. -/
structure CollectionMetadata where
  RunDetails : RunDetails
  WellSample : WellSample
deriving DecidableEq, Repr

/-- Collections element. -/
structure Collections where
  CollectionMetadata : CollectionMetadata
deriving DecidableEq, Repr

/-- DataSetMetadata element. -/
structure DataSetMetadata where
  Collections : Collections
deriving DecidableEq, Repr

/-- SubreadSet element. -/
structure SubreadSet where
  DataSetMetadata : DataSetMetadata
deriving DecidableEq, Repr

/-- SubreadSets element. -/
structure SubreadSets where
  SubreadSet : SubreadSet
deriving DecidableEq, Repr

/-- Outputs element. -/
structure Outputs where
  SubreadSets : SubreadSets
deriving DecidableEq, Repr

/-- Run element. -/
structure Run where
  Name : String
  Outputs : Outputs
deriving DecidableEq, Repr

/-- Runs element. -/
structure Runs where
  Run : Run
deriving DecidableEq, Repr

/-- ExperimentContainer element. -/
structure ExperimentContainer where
  Runs : Runs
deriving DecidableEq, Repr

/-- Root of the decoded descriptor document. -/
structure PacBioDataModel where
  ExperimentContainer : ExperimentContainer
deriving DecidableEq, Repr

/-- BioSampleInfo: a biosample name with its associated barcode. -/
structure BioSampleInfo where
  Name : String
  Barcode : String
deriving DecidableEq, Repr

/-- RunStatus: completion status of a run. -/
inductive RunStatus where
  | complete
  | pending
deriving DecidableEq, Repr

/-- MetadataInfo: the normalized per-cell record produced by the parser. -/
structure MetadataInfo where
  RunName : String
  BioSamples : List BioSampleInfo
  FilePath : String
  CreatedDate : String
  StartedDate : String
  IsMultiplex : Bool
  WellSampleName : String
  Status : RunStatus
deriving DecidableEq, Repr

/-- Sample/barcode extraction loop of `parseMetadata` (metadata.go lines
160-169): one entry per declared barcode, or a single barcode-less entry
for a sample declaring no barcodes.  The nested Go for/append loops are
rendered as nested left folds over an accumulator. -/
def parseBioSampleInfos (bioSamples : List BioSample) : List BioSampleInfo :=
  bioSamples.foldl
    (fun acc bs =>
      if bs.DNABarcodes.length > 0 then
        bs.DNABarcodes.foldl (fun acc2 bc => acc2 ++ [⟨bs.Name, bc.Name⟩]) acc
      else acc ++ [⟨bs.Name, ""⟩])
    []

/-- parseMetadata (metadata.go lines 138-187), applied to an already decoded
document (XML decoding is outside the model; the decoder's own failure
branch is not represented).  Error values are the source's error strings. -/
def parseMetadata (model : PacBioDataModel) (filePath : String) :
    Except String MetadataInfo :=
  let collectionMetadata :=
    model.ExperimentContainer.Runs.Run.Outputs.SubreadSets.SubreadSet.DataSetMetadata.Collections.CollectionMetadata
  let runDetails := collectionMetadata.RunDetails
  if runDetails.Name = "" then
    .error "run name not found in metadata"
  else
    let bioSamples := collectionMetadata.WellSample.BioSamples
    if bioSamples.length = 0 then
      .error "no biosamples found in metadata"
    else
      let bioSampleInfos := parseBioSampleInfos bioSamples
      let isMultiplex :=
        decide (bioSampleInfos.length > 1) &&
          (match bioSampleInfos with
           | [] => false
           | e :: _ => e.Barcode != "")
      .ok
        { RunName := runDetails.Name
          BioSamples := bioSampleInfos
          FilePath := filePath
          CreatedDate := runDetails.WhenCreated
          StartedDate := runDetails.WhenStarted
          IsMultiplex := isMultiplex
          WellSampleName := collectionMetadata.WellSample.Name
          Status := .complete }

/-! ### Run aggregation (metadata.go lines 190-405) -/

/-- RunInfo: aggregated information about one run.  The Go `map[string]bool`
set of biosample names is modelled as an insertion-ordered duplicate-free
list of names. -/
structure RunInfo where
  Name : String
  CreatedDate : String
  StartedDate : String
  Cells : List MetadataInfo
  BioSampleNames : List String
  Status : RunStatus
deriving DecidableEq, Repr

/-- Association-list lookup modelling read access to Go's
`map[string]*RunInfo`. -/
def lookupRun : List (String × RunInfo) → String → Option RunInfo
  | [], _ => none
  | (k, v) :: rest, n => if k = n then some v else lookupRun rest n

/-- Association-list store modelling Go's `runsMap[name] = runInfo`. -/
def updateOrAppend : List (String × RunInfo) → String → RunInfo → List (String × RunInfo)
  | [], n, r => [(n, r)]
  | (k, v) :: rest, n, r =>
    if k = n then (n, r) :: rest else (k, v) :: updateOrAppend rest n r

/-- Insert a name into the biosample-name set
(`runInfo.BioSampleNames[bs.Name] = true`). -/
def insertName (s : List String) (n : String) : List String :=
  if n ∈ s then s else s ++ [n]

/-- Per-file body of the aggregation loop of GetAllRuns (metadata.go lines
339-364): fetch or create the RunInfo for the cell's run name, append the
cell, and record its biosample names. -/
def addCell (m : List (String × RunInfo)) (info : MetadataInfo) :
    List (String × RunInfo) :=
  let r0 : RunInfo :=
    match lookupRun m info.RunName with
    | some r => r
    | none =>
      { Name := info.RunName
        CreatedDate := info.CreatedDate
        StartedDate := info.StartedDate
        Cells := []
        BioSampleNames := []
        Status := .complete }
  let r1 : RunInfo :=
    { r0 with
      Cells := r0.Cells ++ [info]
      BioSampleNames :=
        info.BioSamples.foldl (fun s bs => insertName s bs.Name) r0.BioSampleNames }
  updateOrAppend m info.RunName r1

/-- Pending-run merge loop of GetAllRuns (metadata.go lines 372-376): a
pending run is stored only when its name is absent from the map. -/
def mergePendingRuns (m : List (String × RunInfo)) :
    List RunInfo → List (String × RunInfo)
  | [] => m
  | p :: rest =>
    match lookupRun m p.Name with
    | some _ => mergePendingRuns m rest
    | none => mergePendingRuns (m ++ [(p.Name, p)]) rest

/-- Comparator of sortRunsByDate (metadata.go lines 397-404):
`less i j` is startedDate descending when both dates are non-empty, and
name descending otherwise. -/
def lessRun (a b : RunInfo) : Bool :=
  if a.StartedDate != "" && b.StartedDate != "" then
    goStrLt b.StartedDate a.StartedDate
  else
    goStrLt b.Name a.Name

/-- Inner swap loop of Go's insertion sort: bubble `x` leftwards through the
already sorted prefix (given reversed, rightmost element first) while
`less x neighbour` holds. -/
def bubbleLeft (x : RunInfo) : List RunInfo → List RunInfo
  | [] => [x]
  | y :: ys => if lessRun x y then y :: bubbleLeft x ys else x :: y :: ys

/-- Outer loop of insertion sort, carrying the sorted prefix reversed. -/
def insertionSortRev (acc : List RunInfo) : List RunInfo → List RunInfo
  | [] => acc.reverse
  | x :: xs => insertionSortRev (bubbleLeft x acc) xs

/-- sortRunsByDate (metadata.go lines 395-405).  Go's sort.Slice runs
insertion sort with the given comparator on slices of at most 12 elements
(and an unstable pdqsort above that); the model is the insertion sort, which
is exact at the list lengths considered here. -/
def sortRunsByDate (runs : List RunInfo) : List RunInfo :=
  insertionSortRev [] runs

/-- FindMetadataFiles (metadata.go lines 190-219), with the directory walk
abstracted to the list of directory paths visited and `filepath.Glob`
abstracted to an oracle.  For each directory named `metadata`, glob matches
are kept unless their base name contains `preview` case-insensitively. -/
def FindMetadataFiles (glob : String → List String) (dirs : List String) :
    List String :=
  dirs.foldl
    (fun files path =>
      if baseName path != "metadata" then files
      else
        files ++
          (glob (joinPath path "*.metadata.xml")).filter
            (fun f => !(strContains (strToLower (baseName f)) "preview")))
    []

/-- GetAllRuns (metadata.go lines 330-392), with filesystem interactions
abstracted: `findRes` is the outcome of FindMetadataFiles, `parse` the
outcome of ParseMetadataFile per path, and `pendingRes` the outcome of
FindPendingRuns (its map rendered as a list of pending RunInfo records).
A failed discovery pass is replaced by the empty file list, unparsable
files are skipped, pending runs are merged only under fresh names, and the
result is sorted; an empty aggregate is the error `no valid runs found`. -/
def GetAllRuns (findRes : Except String (List String))
    (parse : String → Except String MetadataInfo)
    (pendingRes : Except String (List RunInfo)) :
    Except String (List RunInfo) :=
  let metadataFiles := match findRes with | .ok fs => fs | .error _ => []
  let runsMap :=
    metadataFiles.foldl
      (fun m f =>
        match parse f with
        | .error _ => m
        | .ok info => addCell m info)
      []
  let pending := match pendingRes with | .ok ps => ps | .error _ => []
  let merged := mergePendingRuns runsMap pending
  if merged.isEmpty then .error "no valid runs found"
  else .ok (sortRunsByDate (merged.map Prod.snd))

/-! ### File mapping resolution (pkg/fileops/fileops.go) -/

/-- FileMapping: one resolved copy instruction. -/
structure FileMapping where
  SourceBAM : String
  SourcePBI : String
  DestBAM : String
  DestPBI : String
  BioSample : String
deriving DecidableEq, Repr

/-- Abstract filesystem oracle: `os.Stat` existence checks and
`filepath.Glob` results keyed by the literal pattern string (Glob returns
its matches sorted, which the oracle is assumed to reflect). -/
structure Filesystem where
  dirExists : String → Bool
  fileExists : String → Bool
  glob : String → List String

/-- Destination construction shared by both branches of IdentifyHiFiFiles
(fileops.go lines 74-84 and 110-121). -/
def mkMapping (outputDir bamFile name : String) : FileMapping :=
  let destDir := joinPath outputDir ("Sample_" ++ name)
  { SourceBAM := bamFile
    SourcePBI := bamFile ++ ".pbi"
    DestBAM := joinPath destDir (name ++ ".mod.unmapped.bam")
    DestPBI := joinPath destDir (name ++ ".mod.unmapped.bam.pbi")
    BioSample := name }

/-- IdentifyHiFiFiles (fileops.go lines 24-125).  The multiplexed branch's
nested for/continue loops are rendered as flatMap/filterMap; the
single-sample branch's `biosamples[0]` panics in Go on an empty list, which
is modelled as an error value. -/
def IdentifyHiFiFiles (fs : Filesystem) (metadataPath : String)
    (biosamples : List BioSampleInfo) (outputDir : String) :
    Except String (List FileMapping) :=
  let metadataDir := parentDir metadataPath
  let runDir := parentDir metadataDir
  let hifiDir := joinPath runDir "hifi_reads"
  if !fs.dirExists hifiDir then
    .error ("hifi_reads directory not found at " ++ hifiDir)
  else
    let multiplexed := biosamples.any (fun b => b.Barcode != "")
    if multiplexed then
      .ok
        (biosamples.flatMap (fun b =>
          let barcode := cutBefore b.Barcode "--"
          let bamFiles := fs.glob (joinPath hifiDir ("*" ++ barcode ++ "*.bam"))
          bamFiles.filterMap (fun bamFile =>
            if fs.fileExists (bamFile ++ ".pbi") then
              some (mkMapping outputDir bamFile b.Name)
            else none)))
    else
      match fs.glob (joinPath hifiDir "*.hifi_reads.bam") with
      | [] => .error ("no HiFi BAM files found in " ++ hifiDir)
      | bamFile :: _ =>
        if !fs.fileExists (bamFile ++ ".pbi") then
          .error ("PBI file not found for BAM: " ++ bamFile)
        else
          match biosamples with
          | [] => .error "panic: index out of range"
          | b :: _ => .ok [mkMapping outputDir bamFile b.Name]

/-- Association-list lookup modelling the Go `map[string][]BioSampleInfo`
passed to IdentifyAllHiFiFiles. -/
def lookupBios : List (String × List BioSampleInfo) → String → Option (List BioSampleInfo)
  | [], _ => none
  | (k, v) :: rest, n => if k = n then some v else lookupBios rest n

/-- Loop of IdentifyAllHiFiFiles (fileops.go lines 132-146): a missing
biosample entry aborts, a failed per-cell resolution is skipped, successful
mappings are concatenated in cell order. -/
def identifyAllLoop (fs : Filesystem)
    (biosamples : List (String × List BioSampleInfo)) (outputDir : String) :
    List String → Except String (List FileMapping)
  | [] => .ok []
  | c :: rest =>
    match lookupBios biosamples c with
    | none => .error ("biosample not found for metadata file: " ++ c)
    | some bl =>
      let headMaps :=
        match IdentifyHiFiFiles fs c bl outputDir with
        | .error _ => []
        | .ok ms => ms
      match identifyAllLoop fs biosamples outputDir rest with
      | .error e => .error e
      | .ok tailMaps => .ok (headMaps ++ tailMaps)

/-- IdentifyAllHiFiFiles (fileops.go lines 129-153): aggregate mappings over
all cells; an empty aggregate is the error `no valid HiFi files
identified`. -/
def IdentifyAllHiFiFiles (fs : Filesystem) (cells : List String)
    (biosamples : List (String × List BioSampleInfo)) (outputDir : String) :
    Except String (List FileMapping) :=
  match identifyAllLoop fs biosamples outputDir cells with
  | .error e => .error e
  | .ok acc =>
    if acc.isEmpty then .error "no valid HiFi files identified"
    else .ok acc

/-! ### Helper lemmas -/

/-- The Go string comparison is irreflexive (char-list level). -/
lemma goStrLtL_irrefl (l : List Char) : goStrLtL l l = false := by
  induction l with
  | nil => rfl
  | cons a as ih => simp [goStrLtL, ih]

/-- The Go string comparison is irreflexive. -/
lemma goStrLt_irrefl (s : String) : goStrLt s s = false :=
  goStrLtL_irrefl s.data

/-- Spec-side description of the entries one declared sample contributes:
one entry per barcode, or a single barcode-less entry. -/
def declaredEntries (bs : BioSample) : List BioSampleInfo :=
  if bs.DNABarcodes.length > 0 then
    bs.DNABarcodes.map (fun bc => ⟨bs.Name, bc.Name⟩)
  else [⟨bs.Name, ""⟩]

/-- The inner barcode fold of `parseBioSampleInfos` appends the mapped
barcodes. -/
lemma barcodeFold (name : String) (bcs : List DNABarcode)
    (acc : List BioSampleInfo) :
    bcs.foldl (fun acc2 bc => acc2 ++ [⟨name, bc.Name⟩]) acc =
      acc ++ bcs.map (fun bc => ⟨name, bc.Name⟩) := by
  induction bcs generalizing acc with
  | nil => simp
  | cons bc rest ih => simp [ih]

/-- The outer fold of `parseBioSampleInfos` appends each sample's declared
entries. -/
lemma parseBioSampleInfosFold (samples : List BioSample)
    (acc : List BioSampleInfo) :
    samples.foldl
        (fun acc bs =>
          if bs.DNABarcodes.length > 0 then
            bs.DNABarcodes.foldl (fun acc2 bc => acc2 ++ [⟨bs.Name, bc.Name⟩]) acc
          else acc ++ [⟨bs.Name, ""⟩])
        acc =
      acc ++ samples.flatMap declaredEntries := by
  induction samples generalizing acc with
  | nil => simp
  | cons bs rest ih =>
    by_cases h : bs.DNABarcodes.length > 0
    · simp only [List.foldl_cons, if_pos h]
      rw [barcodeFold, ih]
      simp [declaredEntries, h, List.append_assoc]
    · simp only [List.foldl_cons, if_neg h]
      rw [ih]
      simp [declaredEntries, h, List.append_assoc]

/-- One declared sample contributes max(B,1) entries. -/
lemma length_declaredEntries (bs : BioSample) :
    (declaredEntries bs).length = max bs.DNABarcodes.length 1 := by
  unfold declaredEntries
  split <;> simp <;> omega

/-- Total length of the declared-entry concatenation. -/
lemma length_flatMap_declaredEntries (samples : List BioSample) :
    (samples.flatMap declaredEntries).length =
      (samples.map (fun bs => max bs.DNABarcodes.length 1)).sum := by
  induction samples with
  | nil => rfl
  | cons bs rest ih =>
    simp only [List.flatMap_cons, List.length_append, List.map_cons,
      List.sum_cons, length_declaredEntries, ih]

/-! ### Claims -/

/-- C5: For every descriptor with K declared samples where sample k declares
B(k) barcodes, the parser produces exactly the sum over k of max(B(k),1)
SampleIdentity entries: a sample with N > 0 barcodes yields its N barcode
entries sharing the sample's name, and a sample with zero barcodes yields
exactly one entry with an empty barcode. -/
theorem C5_sample_extraction (samples : List BioSample) :
    parseBioSampleInfos samples = samples.flatMap declaredEntries ∧
    (parseBioSampleInfos samples).length =
      (samples.map (fun bs => max bs.DNABarcodes.length 1)).sum := by
  have hflat : parseBioSampleInfos samples = samples.flatMap declaredEntries := by
    simpa [parseBioSampleInfos] using parseBioSampleInfosFold samples []
  exact ⟨hflat, by rw [hflat, length_flatMap_declaredEntries]⟩

/-- C1 (amended): For every successfully parsed descriptor, isMultiplex is
true iff the descriptor yields more than one extracted sample entry AND
the FIRST extracted entry carries a non-empty barcode (metadata.go line
171 consults only the first entry). -/
theorem C1_multiplex_first_entry (model : PacBioDataModel) (fp : String)
    (info : MetadataInfo) (h : parseMetadata model fp = .ok info) :
    (info.IsMultiplex = true ↔
      1 < info.BioSamples.length ∧
        ∃ e, info.BioSamples.head? = some e ∧ e.Barcode ≠ "") := by
  simp only [parseMetadata] at h
  split at h
  · exact absurd h (by simp)
  split at h
  · exact absurd h (by simp)
  simp only [Except.ok.injEq] at h
  subst h
  simp only
  generalize parseBioSampleInfos _ = infos
  cases infos with
  | nil => simp
  | cons e rest =>
    simp [Bool.and_eq_true, decide_eq_true_eq, bne_iff_ne, List.head?,
      Nat.lt_succ_iff, and_comm]

/-- Descriptor whose first declared sample has no barcode while the second
declares one. -/
def c1CexModel : PacBioDataModel :=
  { ExperimentContainer :=
    { Runs :=
      { Run :=
        { Name := "RUN1"
          Outputs :=
          { SubreadSets :=
            { SubreadSet :=
              { DataSetMetadata :=
                { Collections :=
                  { CollectionMetadata :=
                    { RunDetails :=
                      { Name := "RUN1", CreatedBy := "user"
                        WhenCreated := "2025-09-22T10:00:00Z"
                        StartedBy := "user"
                        WhenStarted := "2025-09-22T11:00:00Z" }
                      WellSample :=
                      { Name := "WS1"
                        BioSamples := [⟨"A", []⟩, ⟨"B", [⟨"bc1001"⟩]⟩] } } } } } } } } } } }

/-- Parse result of `c1CexModel`: two entries, second barcoded, yet
IsMultiplex is false. -/
def c1CexInfo : MetadataInfo :=
  { RunName := "RUN1"
    BioSamples := [⟨"A", ""⟩, ⟨"B", "bc1001"⟩]
    FilePath := "cell1.metadata.xml"
    CreatedDate := "2025-09-22T10:00:00Z"
    StartedDate := "2025-09-22T11:00:00Z"
    IsMultiplex := false
    WellSampleName := "WS1"
    Status := .complete }

/-- C1 counterexample: a successfully parsed descriptor with more than one
extracted entry and an entry carrying a non-empty barcode, whose
IsMultiplex is nevertheless false (the code checks only the first entry's
barcode), refuting the claimed iff. -/
theorem C1_counterexample :
    parseMetadata c1CexModel "cell1.metadata.xml" = .ok c1CexInfo ∧
    c1CexInfo.IsMultiplex = false ∧
    1 < c1CexInfo.BioSamples.length ∧
    c1CexInfo.BioSamples.any (fun e => e.Barcode != "") = true :=
  ⟨rfl, rfl, by decide, by decide⟩

/-- Descriptor with two barcoded samples (first entry barcoded). -/
def c1Model : PacBioDataModel :=
  { ExperimentContainer :=
    { Runs :=
      { Run :=
        { Name := "RUN2"
          Outputs :=
          { SubreadSets :=
            { SubreadSet :=
              { DataSetMetadata :=
                { Collections :=
                  { CollectionMetadata :=
                    { RunDetails :=
                      { Name := "RUN2", CreatedBy := "user"
                        WhenCreated := "cd", StartedBy := "user"
                        WhenStarted := "sd" }
                      WellSample :=
                      { Name := "WS1"
                        BioSamples := [⟨"A", [⟨"bc1"⟩]⟩, ⟨"B", [⟨"bc2"⟩]⟩] } } } } } } } } } } }

/-- Parse result of `c1Model`. -/
def c1Info : MetadataInfo :=
  { RunName := "RUN2"
    BioSamples := [⟨"A", "bc1"⟩, ⟨"B", "bc2"⟩]
    FilePath := "cell2.metadata.xml"
    CreatedDate := "cd"
    StartedDate := "sd"
    IsMultiplex := true
    WellSampleName := "WS1"
    Status := .complete }

/-- Witness for C1: the amended equivalence evaluated on a concrete
successfully parsed descriptor. -/
theorem C1_witness :
    (c1Info.IsMultiplex = true ↔
      1 < c1Info.BioSamples.length ∧
        ∃ e, c1Info.BioSamples.head? = some e ∧ e.Barcode ≠ "") :=
  C1_multiplex_first_entry c1Model "cell2.metadata.xml" c1Info rfl

/-- Run named `A` with started date 20250101. -/
def runTieA : RunInfo :=
  { Name := "A", CreatedDate := "", StartedDate := "20250101"
    Cells := [], BioSampleNames := [], Status := .complete }

/-- Run named `B` with the same started date 20250101. -/
def runTieB : RunInfo :=
  { Name := "B", CreatedDate := "", StartedDate := "20250101"
    Cells := [], BioSampleNames := [], Status := .complete }

/-- C2 counterexample: two runs with identical non-empty startedDate come
out of sortRunsByDate in their input order, here name ASCENDING (`A` before
`B` although `A` is smaller), refuting the claimed name-descending tie
order. -/
theorem C2_counterexample :
    sortRunsByDate [runTieA, runTieB] = [runTieA, runTieB] ∧
    runTieA.StartedDate = runTieB.StartedDate ∧
    runTieA.StartedDate ≠ "" ∧
    goStrLt runTieA.Name runTieB.Name = true :=
  ⟨rfl, rfl, by decide, by decide⟩

/-- C2 (amended): the comparator of sortRunsByDate treats two runs with
identical non-empty startedDate as equivalent in both directions and never
consults their names, so the insertion sort leaves such a pair in input
order; name descending applies only when a compared run lacks a started
date. -/
theorem C2_tie_keeps_input_order (r1 r2 : RunInfo)
    (h1 : r1.StartedDate = r2.StartedDate) (h2 : r1.StartedDate ≠ "") :
    lessRun r1 r2 = false ∧ lessRun r2 r1 = false ∧
    sortRunsByDate [r1, r2] = [r1, r2] := by
  have hb1 : (r1.StartedDate != "") = true := bne_iff_ne.mpr h2
  have hb2 : (r2.StartedDate != "") = true := bne_iff_ne.mpr (h1 ▸ h2)
  have h12 : lessRun r1 r2 = false := by
    simp only [lessRun, hb1, hb2, Bool.and_self, if_true, h1]
    exact goStrLt_irrefl r2.StartedDate
  have h21 : lessRun r2 r1 = false := by
    simp only [lessRun, hb1, hb2, Bool.and_self, if_true, h1]
    exact goStrLt_irrefl r2.StartedDate
  refine ⟨h12, h21, ?_⟩
  simp [sortRunsByDate, insertionSortRev, bubbleLeft, h21]

/-- Witness for C2: the amended tie behavior evaluated on the two concrete
tied runs. -/
theorem C2_witness :
    lessRun runTieA runTieB = false ∧ lessRun runTieB runTieA = false ∧
    sortRunsByDate [runTieA, runTieB] = [runTieA, runTieB] :=
  C2_tie_keeps_input_order runTieA runTieB rfl (by decide)

/-- Storing under a name makes that name resolve to the stored record. -/
lemma lookup_updateOrAppend (m : List (String × RunInfo)) (n : String)
    (r : RunInfo) : lookupRun (updateOrAppend m n r) n = some r := by
  induction m with
  | nil => simp [updateOrAppend, lookupRun]
  | cons kv rest ih =>
    obtain ⟨k, v⟩ := kv
    by_cases h : k = n
    · simp [updateOrAppend, h, lookupRun]
    · simp [updateOrAppend, h, lookupRun, ih]

/-- C4 (amended): the first cell seen for a run name seeds the RunView's
createdDate and startedDate, and later cells of the same run never change
those fields — not even when they were previously empty (metadata.go lines
346-357 set the dates only in the creation branch). -/
theorem C4_first_cell_dates (m : List (String × RunInfo))
    (info : MetadataInfo) :
    (∀ r, lookupRun m info.RunName = some r →
      (lookupRun (addCell m info) info.RunName).map
          (fun x => (x.CreatedDate, x.StartedDate)) =
        some (r.CreatedDate, r.StartedDate)) ∧
    (lookupRun m info.RunName = none →
      (lookupRun (addCell m info) info.RunName).map
          (fun x => (x.CreatedDate, x.StartedDate)) =
        some (info.CreatedDate, info.StartedDate)) := by
  constructor
  · intro r h
    simp [addCell, h, lookup_updateOrAppend]
  · intro h
    simp [addCell, h, lookup_updateOrAppend]

/-- First cell of run `R`: both date fields empty. -/
def c4Cell1 : MetadataInfo :=
  { RunName := "R", BioSamples := [⟨"A", ""⟩], FilePath := "f1"
    CreatedDate := "", StartedDate := "", IsMultiplex := false
    WellSampleName := "W", Status := .complete }

/-- Second cell of run `R`: both date fields non-empty. -/
def c4Cell2 : MetadataInfo :=
  { RunName := "R", BioSamples := [⟨"A", ""⟩], FilePath := "f2"
    CreatedDate := "20250102", StartedDate := "20250101", IsMultiplex := false
    WellSampleName := "W", Status := .complete }

/-- Aggregation state after the first cell of run `R`. -/
def c4Map : List (String × RunInfo) := addCell [] c4Cell1

/-- The RunInfo recorded for `R` after the first cell. -/
def c4Run1 : RunInfo :=
  { Name := "R", CreatedDate := "", StartedDate := ""
    Cells := [c4Cell1], BioSampleNames := ["A"], Status := .complete }

/-- C4 counterexample: the first cell leaves both date fields empty and the
second cell carries non-empty dates, yet the aggregated run still has empty
dates — the later cell's non-empty date does NOT fill the previously empty
field, refuting the claim. -/
theorem C4_counterexample :
    (lookupRun (addCell c4Map c4Cell2) "R").map
        (fun r => (r.CreatedDate, r.StartedDate)) = some ("", "") ∧
    c4Cell2.CreatedDate = "20250102" ∧ c4Cell2.StartedDate = "20250101" :=
  ⟨rfl, rfl, rfl⟩

/-- Witness for C4: the dates recorded by the first cell survive the second
cell unchanged on the concrete two-cell run. -/
theorem C4_witness :
    (lookupRun (addCell c4Map c4Cell2) c4Cell2.RunName).map
        (fun x => (x.CreatedDate, x.StartedDate)) =
      some (c4Run1.CreatedDate, c4Run1.StartedDate) :=
  (C4_first_cell_dates c4Map c4Cell2).1 c4Run1 rfl

/-- A lookup that succeeds is unaffected by appending entries. -/
lemma lookup_append_left (m l : List (String × RunInfo)) (n : String)
    (r : RunInfo) (h : lookupRun m n = some r) :
    lookupRun (m ++ l) n = some r := by
  induction m with
  | nil => exact absurd h (by simp [lookupRun])
  | cons kv rest ih =>
    obtain ⟨k, v⟩ := kv
    have hh : (if k = n then some v else lookupRun rest n) = some r := h
    show (if k = n then some v else lookupRun (rest ++ l) n) = some r
    by_cases hk : k = n
    · rw [if_pos hk] at hh ⊢; exact hh
    · rw [if_neg hk] at hh ⊢; exact ih hh

/-- A lookup that fails on an appended map fails on its left part. -/
lemma lookup_append_none_left (m l : List (String × RunInfo)) (n : String)
    (h : lookupRun (m ++ l) n = none) : lookupRun m n = none := by
  induction m with
  | nil => rfl
  | cons kv rest ih =>
    obtain ⟨k, v⟩ := kv
    have hh : (if k = n then some v else lookupRun (rest ++ l) n) = none := h
    show (if k = n then some v else lookupRun rest n) = none
    by_cases hk : k = n
    · rw [if_pos hk] at hh; exact absurd hh (by simp)
    · rw [if_neg hk] at hh ⊢; exact ih hh

/-- Merging pending runs never disturbs an existing entry's lookup. -/
lemma merge_lookup_preserved (pend : List RunInfo)
    (m : List (String × RunInfo)) (n : String) (r : RunInfo)
    (h : lookupRun m n = some r) :
    lookupRun (mergePendingRuns m pend) n = some r := by
  induction pend generalizing m with
  | nil => exact h
  | cons p rest ih =>
    simp only [mergePendingRuns]
    cases hp : lookupRun m p.Name with
    | some _ => exact ih m h
    | none => exact ih _ (lookup_append_left m _ n r h)

/-- Every entry of the merged map either existed before the merge or was
added under a name that had no entry before the merge. -/
lemma merge_mem (pend : List RunInfo) (m : List (String × RunInfo))
    (k : String) (v : RunInfo)
    (h : (k, v) ∈ mergePendingRuns m pend) :
    (k, v) ∈ m ∨ lookupRun m k = none := by
  induction pend generalizing m with
  | nil => exact .inl h
  | cons p rest ih =>
    simp only [mergePendingRuns] at h
    cases hp : lookupRun m p.Name with
    | some w => rw [hp] at h; exact ih m h
    | none =>
      rw [hp] at h
      rcases ih _ h with hmem | hnone
      · rcases List.mem_append.mp hmem with hmem | hmem
        · exact .inl hmem
        · right
          have : (k, v) = (p.Name, p) := by simpa using hmem
          rw [show k = p.Name from congrArg Prod.fst this]
          exact hp
      · exact .inr (lookup_append_none_left m _ k hnone)

/-- C6: when pending records are merged into the completed map, a name that
already has a completed RunView keeps resolving to that completed record,
and no entry is added under such a name — the pending record for a name
present in both sets never makes it into the result. -/
theorem C6_completed_wins (m : List (String × RunInfo)) (pend : List RunInfo)
    (n : String) (r : RunInfo) (h : lookupRun m n = some r) :
    lookupRun (mergePendingRuns m pend) n = some r ∧
    ∀ v, (n, v) ∈ mergePendingRuns m pend → (n, v) ∈ m := by
  refine ⟨merge_lookup_preserved pend m n r h, fun v hv => ?_⟩
  rcases merge_mem pend m n v hv with hmem | hnone
  · exact hmem
  · rw [hnone] at h; exact absurd h (by simp)

/-- Completed RunView for run `R`. -/
def c6Complete : RunInfo :=
  { Name := "R", CreatedDate := "cd", StartedDate := "20250101"
    Cells := [c4Cell1], BioSampleNames := ["A"], Status := .complete }

/-- Pending record sharing the name `R`. -/
def c6Pending : RunInfo :=
  { Name := "R", CreatedDate := "", StartedDate := "20250102"
    Cells := [], BioSampleNames := [], Status := .pending }

/-- Completed map holding run `R`. -/
def c6Map : List (String × RunInfo) := [("R", c6Complete)]

/-- Witness for C6: with a concrete completed run and a pending record of
the same name, the merged map still resolves the name to the completed
record. -/
theorem C6_witness :
    lookupRun (mergePendingRuns c6Map [c6Pending]) "R" = some c6Complete :=
  (C6_completed_wins c6Map [c6Pending] "R" c6Complete rfl).1

/-- Merging pending runs never shrinks the map to empty. -/
lemma merge_ne_nil (pend : List RunInfo) (m : List (String × RunInfo))
    (hm : m ≠ []) : mergePendingRuns m pend ≠ [] := by
  induction pend generalizing m with
  | nil => exact hm
  | cons p rest ih =>
    simp only [mergePendingRuns]
    cases hp : lookupRun m p.Name with
    | some _ => exact ih m hm
    | none =>
      refine ih _ ?_
      cases m <;> simp

/-- C3 (amended): a failure of the completed-descriptor discovery walk is
swallowed by GetAllRuns (metadata.go lines 332-335 ignore the error), so
aggregation proceeds with no completed cells: it fails — with the
NoRunsFound error `no valid runs found`, not with the walk's own error —
exactly when there are also no pending runs, and succeeds on the pending
runs otherwise. -/
theorem C3_walk_failure_swallowed (e : String)
    (parse : String → Except String MetadataInfo) (pend : List RunInfo) :
    (pend = [] →
      GetAllRuns (.error e) parse (.ok pend) = .error "no valid runs found") ∧
    (pend ≠ [] →
      (GetAllRuns (.error e) parse (.ok pend)).isOk = true) := by
  constructor
  · intro h
    subst h
    rfl
  · intro hne
    obtain ⟨p, rest, rfl⟩ : ∃ p rest, pend = p :: rest := by
      cases pend with
      | nil => exact absurd rfl hne
      | cons p rest => exact ⟨p, rest, rfl⟩
    have hmerge :
        mergePendingRuns ([] : List (String × RunInfo)) (p :: rest) =
          mergePendingRuns [(p.Name, p)] rest := rfl
    have hnil : mergePendingRuns [(p.Name, p)] rest ≠ [] :=
      merge_ne_nil rest [(p.Name, p)] (by simp)
    simp only [GetAllRuns, List.foldl_nil, hmerge]
    cases hm : mergePendingRuns [(p.Name, p)] rest with
    | nil => exact absurd hm hnil
    | cons q qs => simp [Except.isOk, Except.toBool]

/-- Parse oracle that rejects everything (unused by the C3 inputs). -/
def c3Parse : String → Except String MetadataInfo :=
  fun _ => .error "unused"

/-- A concrete pending run record. -/
def c3Pending : RunInfo :=
  { Name := "r84297_20250922_085610", CreatedDate := ""
    StartedDate := "20250922", Cells := [], BioSampleNames := []
    Status := .pending }

/-- C3 counterexample: with a failing discovery walk and no pending runs,
GetAllRuns returns the NoRunsFound error `no valid runs found` instead of
failing with the walk's DiscoveryFailed error, refuting the claim. -/
theorem C3_counterexample :
    GetAllRuns (.error "walk failed") c3Parse (.ok []) =
      .error "no valid runs found" ∧
    "no valid runs found" ≠ "walk failed" :=
  ⟨rfl, by decide⟩

/-- Witness for C3: the amended behavior evaluated at a failing walk with,
respectively, no pending runs and one pending run. -/
theorem C3_witness :
    GetAllRuns (.error "walk failed") c3Parse (.ok []) =
      .error "no valid runs found" ∧
    (GetAllRuns (.error "walk failed") c3Parse (.ok [c3Pending])).isOk = true :=
  ⟨(C3_walk_failure_swallowed "walk failed" c3Parse []).1 rfl,
   (C3_walk_failure_swallowed "walk failed" c3Parse [c3Pending]).2 (by simp)⟩

/-- Every file accumulated by the discovery fold either was in the
accumulator already or passed the preview filter. -/
lemma findMetadataFilesAux (glob : String → List String) (dirs : List String)
    (acc : List String) (f : String)
    (h : f ∈ dirs.foldl
      (fun files path =>
        if baseName path != "metadata" then files
        else
          files ++
            (glob (joinPath path "*.metadata.xml")).filter
              (fun f => !(strContains (strToLower (baseName f)) "preview")))
      acc) :
    f ∈ acc ∨ strContains (strToLower (baseName f)) "preview" = false := by
  induction dirs generalizing acc with
  | nil => exact .inl h
  | cons d rest ih =>
    rw [List.foldl_cons] at h
    rcases ih _ h with hacc | hpass
    · by_cases hd : (baseName d != "metadata") = true
      · rw [if_pos hd] at hacc
        exact .inl hacc
      · rw [if_neg hd] at hacc
        rcases List.mem_append.mp hacc with hacc | hfil
        · exact .inl hacc
        · right
          have := List.of_mem_filter hfil
          simpa using this
    · exact .inr hpass

/-- C9: no descriptor path returned by completed-run discovery has a base
name containing the substring `preview` in any letter case. -/
theorem C9_no_preview_descriptors (glob : String → List String)
    (dirs : List String) (f : String)
    (h : f ∈ FindMetadataFiles glob dirs) :
    strContains (strToLower (baseName f)) "preview" = false := by
  rcases findMetadataFilesAux glob dirs [] f h with habs | hpass
  · exact absurd habs (by simp)
  · exact hpass

/-- Directory walk for the C9 witness: one metadata directory. -/
def c9Dirs : List String := ["/root/RUN1/c1/metadata", "/root/RUN1/c1/hifi_reads"]

/-- Glob oracle for the C9 witness: one regular descriptor and one preview
descriptor. -/
def c9Glob : String → List String := fun pat =>
  if pat == "/root/RUN1/c1/metadata/*.metadata.xml" then
    ["/root/RUN1/c1/metadata/a.metadata.xml",
     "/root/RUN1/c1/metadata/b.Preview.metadata.xml"]
  else []

/-- Witness for C9: the surviving concrete descriptor path has no
`preview` in its lowercased base name. -/
theorem C9_witness :
    strContains (strToLower (baseName "/root/RUN1/c1/metadata/a.metadata.xml"))
      "preview" = false :=
  C9_no_preview_descriptors c9Glob c9Dirs
    "/root/RUN1/c1/metadata/a.metadata.xml" (by decide)

/-- The destination fields of every constructed mapping follow the
`Sample_<name>/<name>.mod.unmapped.bam[."pbi"]` shape under the output
root. -/
lemma mkMapping_dest (out bamFile name : String) :
    (mkMapping out bamFile name).DestBAM =
      out ++ "/" ++ "Sample_" ++ name ++ "/" ++ name ++ ".mod.unmapped.bam" ∧
    (mkMapping out bamFile name).DestPBI =
      (mkMapping out bamFile name).DestBAM ++ ".pbi" := by
  constructor
  · simp only [mkMapping, joinPath, String.append_assoc]
  · simp only [mkMapping, joinPath, String.append_assoc]
    rfl

/-- Every mapping returned by IdentifyHiFiFiles is built by `mkMapping`
from the output root, some BAM path and some sample name. -/
lemma mem_ok_mkMapping (fs : Filesystem) (path : String)
    (bios : List BioSampleInfo) (out : String) (ms : List FileMapping)
    (m : FileMapping) (h : IdentifyHiFiFiles fs path bios out = .ok ms)
    (hm : m ∈ ms) : ∃ bamFile name, m = mkMapping out bamFile name := by
  simp only [IdentifyHiFiFiles] at h
  split at h
  · exact absurd h (by simp)
  split at h
  · simp only [Except.ok.injEq] at h
    subst h
    obtain ⟨b, _, hmem⟩ := List.mem_flatMap.mp hm
    obtain ⟨bamFile, _, heq⟩ := List.mem_filterMap.mp hmem
    split at heq
    · exact ⟨bamFile, b.Name, (Option.some.injEq _ _ ▸ heq).symm⟩
    · exact absurd heq (by simp)
  · split at h
    · exact absurd h (by simp)
    split at h
    · exact absurd h (by simp)
    split at h
    · exact absurd h (by simp)
    · simp only [Except.ok.injEq] at h
      subst h
      obtain rfl := List.mem_singleton.mp hm
      exact ⟨_, _, rfl⟩

/-- Metadata path of the single-sample scenario cell. -/
def c8Path : String := "/root/RUN1/c1/metadata/x.metadata.xml"

/-- Filesystem of the single-sample scenario: a hifi_reads directory with
exactly one `*.hifi_reads.bam` and its `.pbi`. -/
def c8Fs : Filesystem :=
  { dirExists := fun p => p == "/root/RUN1/c1/hifi_reads"
    fileExists := fun p => p == "/root/RUN1/c1/hifi_reads/x.hifi_reads.bam.pbi"
    glob := fun pat =>
      if pat == "/root/RUN1/c1/hifi_reads/*.hifi_reads.bam" then
        ["/root/RUN1/c1/hifi_reads/x.hifi_reads.bam"]
      else [] }

/-- The single mapping resolved in the scenario. -/
def c8Mapping : FileMapping :=
  mkMapping "/out" "/root/RUN1/c1/hifi_reads/x.hifi_reads.bam" "S1"

/-- C8: every FileMapping produced by the resolver (either branch) has
destination read file `outputRoot/Sample_name/name.mod.unmapped.bam` and
index file that path plus `.pbi`; and in the concrete scenario of one
sample `S1` without barcode and one `*.hifi_reads.bam` with its `.pbi`,
resolution yields exactly one mapping with destination
`Sample_S1/S1.mod.unmapped.bam`. -/
theorem C8_destination_paths :
    (∀ (fs : Filesystem) (path : String) (bios : List BioSampleInfo)
        (out : String) (ms : List FileMapping) (m : FileMapping),
        IdentifyHiFiFiles fs path bios out = .ok ms → m ∈ ms →
        m.DestBAM =
          out ++ "/" ++ "Sample_" ++ m.BioSample ++ "/" ++ m.BioSample ++
            ".mod.unmapped.bam" ∧
        m.DestPBI = m.DestBAM ++ ".pbi") ∧
    IdentifyHiFiFiles c8Fs c8Path [⟨"S1", ""⟩] "/out" = .ok [c8Mapping] ∧
    c8Mapping.BioSample = "S1" ∧
    c8Mapping.DestBAM = "/out/Sample_S1/S1.mod.unmapped.bam" ∧
    c8Mapping.DestPBI = "/out/Sample_S1/S1.mod.unmapped.bam.pbi" := by
  refine ⟨?_, rfl, rfl, rfl, rfl⟩
  intro fs path bios out ms m h hm
  obtain ⟨bamFile, name, rfl⟩ := mem_ok_mkMapping fs path bios out ms m h hm
  exact mkMapping_dest out bamFile name

/-- Witness for C8: the destination shape evaluated on the mapping the
concrete scenario produces. -/
theorem C8_witness :
    c8Mapping.DestBAM =
      "/out" ++ "/" ++ "Sample_" ++ c8Mapping.BioSample ++ "/" ++
        c8Mapping.BioSample ++ ".mod.unmapped.bam" ∧
    c8Mapping.DestPBI = c8Mapping.DestBAM ++ ".pbi" :=
  C8_destination_paths.1 c8Fs c8Path [⟨"S1", ""⟩] "/out" [c8Mapping] c8Mapping
    rfl (by simp)

/-- C10: for every non-empty sample list in which no entry carries a
non-empty barcode, the resolver recomputes multiplexing from the list
alone (its IsMultiplex flag is not even an input), takes the single-sample
branch, and on success returns exactly one FileMapping named after the
FIRST entry — even when the list has more than one entry. -/
theorem C10_barcodeless_single_branch (fs : Filesystem) (path out : String)
    (b : BioSampleInfo) (rest : List BioSampleInfo)
    (hbar : ∀ x ∈ b :: rest, x.Barcode = "") (ms : List FileMapping)
    (h : IdentifyHiFiFiles fs path (b :: rest) out = .ok ms) :
    ms.map (fun m => m.BioSample) = [b.Name] := by
  have hmul : ((b :: rest).any fun x => x.Barcode != "") = false := by
    rw [List.any_eq_false]
    intro x hx
    simp [hbar x hx]
  simp only [IdentifyHiFiFiles, hmul] at h
  split at h
  · exact absurd h (by simp)
  · simp only [if_false, Bool.false_eq_true] at h
    split at h
    · exact absurd h (by simp)
    split at h
    · exact absurd h (by simp)
    · simp only [Except.ok.injEq] at h
      subst h
      rfl

/-- Result mappings of the C10 witness scenario: one mapping although two
samples were declared. -/
def c10Maps : List FileMapping :=
  [mkMapping "/out" "/root/RUN1/c1/hifi_reads/x.hifi_reads.bam" "S1"]

/-- Witness for C10: two barcode-less samples, successful resolution, one
mapping named after the first sample. -/
theorem C10_witness : c10Maps.map (fun m => m.BioSample) = ["S1"] :=
  C10_barcodeless_single_branch c8Fs c8Path "/out" ⟨"S1", ""⟩ [⟨"S2", ""⟩]
    (by decide) c10Maps rfl

/-- Mappings one cell contributes to the aggregate: none when its lookup or
its resolution fails, its resolved mappings otherwise. -/
def cellMappings (fs : Filesystem)
    (biosamples : List (String × List BioSampleInfo)) (outputDir : String)
    (c : String) : List FileMapping :=
  match lookupBios biosamples c with
  | none => []
  | some bl =>
    match IdentifyHiFiFiles fs c bl outputDir with
    | .error _ => []
    | .ok ms => ms

/-- With every cell present in the biosample map, the aggregation loop
succeeds with the concatenation of the per-cell contributions. -/
lemma identifyAllLoop_ok (fs : Filesystem)
    (biosamples : List (String × List BioSampleInfo)) (outputDir : String)
    (cells : List String)
    (hall : ∀ c ∈ cells, (lookupBios biosamples c).isSome = true) :
    identifyAllLoop fs biosamples outputDir cells =
      .ok (cells.flatMap (cellMappings fs biosamples outputDir)) := by
  induction cells with
  | nil => rfl
  | cons c rest ih =>
    have hc := hall c (by simp)
    obtain ⟨bl, hbl⟩ := Option.isSome_iff_exists.mp hc
    have hrest := ih (fun x hx => hall x (by simp [hx]))
    simp only [identifyAllLoop, hbl, hrest, List.flatMap_cons,
      cellMappings]

/-- C7: with every cell present in the biosample map, per-cell resolution
failures are skipped rather than fatal; the whole operation returns the
concatenated mappings when at least one cell contributes one, and fails
with the NoFilesIdentified error `no valid HiFi files identified` exactly
when zero mappings result across all cells. -/
theorem C7_percell_failures_skipped (fs : Filesystem) (cells : List String)
    (biosamples : List (String × List BioSampleInfo)) (outputDir : String)
    (hall : ∀ c ∈ cells, (lookupBios biosamples c).isSome = true) :
    IdentifyAllHiFiFiles fs cells biosamples outputDir =
      (if (cells.flatMap (cellMappings fs biosamples outputDir)).isEmpty then
        .error "no valid HiFi files identified"
      else .ok (cells.flatMap (cellMappings fs biosamples outputDir))) := by
  simp only [IdentifyAllHiFiFiles,
    identifyAllLoop_ok fs biosamples outputDir cells hall]

/-- Cells of the C7 witness: one resolvable cell and one whose hifi_reads
directory is missing. -/
def c7Cells : List String :=
  [c8Path, "/root/RUN1/c2/metadata/y.metadata.xml"]

/-- Biosample map of the C7 witness, covering both cells. -/
def c7Bios : List (String × List BioSampleInfo) :=
  [(c8Path, [⟨"S1", ""⟩]),
   ("/root/RUN1/c2/metadata/y.metadata.xml", [⟨"S2", ""⟩])]

/-- Witness for C7: the second cell fails to resolve (no hifi_reads
directory in `c8Fs`), yet aggregation succeeds with the first cell's
mapping. -/
theorem C7_witness :
    IdentifyAllHiFiFiles c8Fs c7Cells c7Bios "/out" =
      (if (c7Cells.flatMap (cellMappings c8Fs c7Bios "/out")).isEmpty then
        .error "no valid HiFi files identified"
      else .ok (c7Cells.flatMap (cellMappings c8Fs c7Bios "/out"))) :=
  C7_percell_failures_skipped c8Fs c7Cells c7Bios "/out" (by decide)
